import Mathlib

/-!
Shallow embedding of the Messer terminal messaging client (`messer.js` and
`helpers.js`). JavaScript objects used as string-keyed dictionaries are
modelled as insertion-ordered association lists; property assignment updates
an existing key in place (keeping its position) and otherwise appends, which
matches the ordinary-object semantics the code relies on. Asynchronous
callbacks from the `facebook-chat-api` backend are modelled by passing each
backend response in explicitly as an `Except` value; a rejected promise is an
`Except.error`, a resolved one an `Except.ok`. A JavaScript runtime fault
(reading a property of `undefined`) is modelled by the `JsFault` error type.
The string operations the code uses (`toLowerCase`, `startsWith`, `trim`,
`split`, first-occurrence `replace`) are modelled by structurally recursive
functions on the underlying character lists, with case folding and the
whitespace class covering the ASCII range.
-/

/-- Lookup of a property on a string-keyed JavaScript object
(`obj[k]`, `undefined` becoming `none`). -/
def jsGet (m : List (String × α)) (k : String) : Option α :=
  match m with
  | [] => none
  | p :: rest => if p.1 = k then some p.2 else jsGet rest k

/-- Property assignment on a string-keyed JavaScript object (`obj[k] = v`):
an existing key keeps its position in iteration order, a new key is appended. -/
def jsSet (m : List (String × α)) (k : String) (v : α) : List (String × α) :=
  match m with
  | [] => [(k, v)]
  | p :: rest => if p.1 = k then (k, v) :: rest else p :: jsSet rest k v

/-- The numeric value of a key that is a canonical array index
(`"0"`, `"1"`, ... below 2^32 - 1: all digits, no leading zero except in
`"0"` itself), `none` for every other key. -/
def arrayIndexVal (k : String) : Option Nat :=
  if k.data ≠ [] ∧ k.data.all Char.isDigit = true ∧
      (k.data.headD '0' ≠ '0' ∨ k.data.length = 1) then
    let n := k.data.foldl (fun a c => a * 10 + (c.toNat - 48)) 0
    if n < 4294967295 then some n else none
  else none

/-- Insert into an ascending list of naturals. -/
def insertAsc (n : Nat) : List Nat → List Nat
  | [] => [n]
  | m :: ms => if n ≤ m then n :: m :: ms else m :: insertAsc n ms

/-- Sort a list of naturals ascending. -/
def sortAsc (l : List Nat) : List Nat := l.foldr insertAsc []

/-- `Object.keys(obj)`: canonical array-index keys first in ascending numeric
order, then the remaining string keys in insertion order. -/
def jsKeys (m : List (String × α)) : List String :=
  let ks := m.map Prod.fst
  (sortAsc (ks.filterMap arrayIndexVal)).map (fun n => toString n)
    ++ ks.filter (fun k => (arrayIndexVal k).isNone)

/-- `s.startsWith(pat)` at the character level: `charsStartWith s pat` is
`true` when the list `pat` is an initial segment of `s`. -/
def charsStartWith : List Char → List Char → Bool
  | _, [] => true
  | [], _ :: _ => false
  | c :: cs, d :: ds => if c = d then charsStartWith cs ds else false

/-- `s.toLowerCase()` over the ASCII range: each character is lower-cased. -/
def jsToLower (s : String) : String :=
  ⟨s.data.map Char.toLower⟩

/-- `s.startsWith(pat)` for strings. -/
def jsStartsWith (s pat : String) : Bool :=
  charsStartWith s.data pat.data

/-- `s.trim()`: strip whitespace from both ends. -/
def jsTrim (s : String) : String :=
  ⟨((s.data.dropWhile Char.isWhitespace).reverse.dropWhile
      Char.isWhitespace).reverse⟩

/-- Split a character list at every occurrence of `sep` (adjacent separators
produce empty fragments, as `String.prototype.split` does). -/
def splitChar (sep : Char) : List Char → List (List Char)
  | [] => [[]]
  | c :: cs =>
    match splitChar sep cs with
    | [] => [[]]
    | w :: ws => if c = sep then [] :: w :: ws else (c :: w) :: ws

/-- `s.split(sep)` for a one-character separator. -/
def jsSplit (s : String) (sep : Char) : List String :=
  (splitChar sep s.data).map (fun w => ⟨w⟩)

/-- Delete the first occurrence of a character, if any. -/
def removeFirstChar (sep : Char) : List Char → List Char
  | [] => []
  | c :: cs => if c = sep then cs else c :: removeFirstChar sep cs

/-- `s.replace("\n", "")`: a string-pattern `replace` in JavaScript touches
only the first occurrence. -/
def jsDeleteFirst (s : String) (pat : Char) : String :=
  ⟨removeFirstChar pat s.data⟩

/-- The command name `processCommand` looks up:
`args[0]` of `rawCommand.replace("\n", "").split(" ")`. -/
def commandToken (rawCommand : String) : String :=
  (jsSplit (jsDeleteFirst rawCommand '\n') ' ').headD ""

/-- A contact record as returned by `api.getFriendsList`; an absent `name`
field (falsy in JavaScript) is modelled by the empty string. -/
structure Contact where
  userID : String
  name : String
  fullName : String
deriving DecidableEq, Repr

/-- A thread record; `extra` holds the backend fields beyond `threadID` and
`name` that a full `api.getThreadInfo` record may carry. The two-field node
built by `cacheThread` has `extra = []`. -/
structure ThreadRecord where
  threadID : String
  name : String
  extra : List (String × String)
deriving DecidableEq, Repr

/-- The mutable session state of a `Messer` instance: `userCache` (keyed by
userID), `threadCache` (keyed by threadID) and `threadMap` (display name to
thread/user id, the NameIndex). The constructor holds no other bookkeeping
for thread fetches. -/
structure MesserState where
  userCache : List (String × Contact)
  threadCache : List (String × ThreadRecord)
  threadMap : List (String × String)
deriving DecidableEq, Repr

/-- The state of a freshly constructed `Messer` (all caches empty). -/
def stEmpty : MesserState := ⟨[], [], []⟩

/-- A runtime fault of the JavaScript engine: reading a property of
`undefined` throws a TypeError. -/
inductive JsFault
  | typeErrorUndefined
deriving DecidableEq, Repr

/-- `Messer.prototype.cacheThread`: if an entry for `thread.threadID` is
already present (a cached node is an object, hence truthy) the call returns
at once; otherwise it stores the two-field node
`\x7b name: thread.name, threadID: thread.threadID \x7d`. -/
def cacheThread (st : MesserState) (thread : ThreadRecord) : MesserState :=
  match jsGet st.threadCache thread.threadID with
  | some _ => st
  | none =>
    { st with
      threadCache :=
        jsSet st.threadCache thread.threadID ⟨thread.threadID, thread.name, []⟩ }

/-- The current user assembled by `fetchCurrentUser`: the local `user` object
starts as `\x7b userID \x7d` and is merged (`Object.assign`) with the profile
fields the backend returns for that id. -/
structure FetchedUser where
  userID : String
  profile : List (String × String)
deriving DecidableEq, Repr

/-- One run's responses from the `facebook-chat-api` backend, one per call
`fetchCurrentUser` makes: `api.getCurrentUserID()` (synchronous, cannot
fail), `api.getUserInfo` (a map from userID to profile fields),
`api.getFriendsList`, and `api.getThreadList(0, 20, ...)`. An `Except.error`
is the callback being invoked with a truthy `err` (and no data). -/
structure Backend where
  currentUserID : String
  userInfo : Except String (List (String × List (String × String)))
  friends : Except String (List Contact)
  threadList : Except String (List ThreadRecord)

/-- The display-name key under which `fetchCurrentUser` indexes a contact:
`u.name || u.fullName` (the fallback fires when `name` is falsy). -/
def contactKey (u : Contact) : String :=
  if u.name = "" then u.fullName else u.name

/-- The body of the `getFriendsList` callback's `forEach`: one contact adds
`threadMap[u.name || u.fullName] = u.userID` and `userCache[u.userID] = u`. -/
def applyContact (st : MesserState) (u : Contact) : MesserState :=
  { st with
    threadMap := jsSet st.threadMap (contactKey u) u.userID
    userCache := jsSet st.userCache u.userID u }

/-- The whole `data.forEach((u) => ...)` over the retrieved contact list. -/
def applyContacts (st : MesserState) (friends : List Contact) : MesserState :=
  friends.foldl applyContact st

/-- The `threads.forEach((t) => this.cacheThread(t))` over a thread page. -/
def registerThreads (st : MesserState) (threads : List ThreadRecord) :
    MesserState :=
  threads.foldl cacheThread st

/-- `Messer.prototype.fetchCurrentUser`. The nested callbacks run in
sequence: `getUserInfo` (rejecting on error), `getFriendsList` (rejecting on
error, otherwise filling `threadMap` and `userCache`), then
`getThreadList(0, 20, ...)` whose callback ignores `err`, caches the page
only when `threads` is truthy, and resolves the assembled user either way.
The result is the promise outcome paired with the session state left behind
(the JavaScript object keeps its mutations even when the promise rejects). -/
def fetchCurrentUser (st : MesserState) (b : Backend) :
    Except String FetchedUser × MesserState :=
  let userID := b.currentUserID
  match b.userInfo with
  | .error e => (.error e, st)
  | .ok data =>
    let profile := (jsGet data userID).getD []
    match b.friends with
    | .error e => (.error e, st)
    | .ok friends =>
      let st1 := applyContacts st friends
      let st2 :=
        match b.threadList with
        | .error _ => st1
        | .ok threads => registerThreads st1 threads
      (.ok ⟨userID, profile⟩, st2)

/-- `Messer.prototype.getThreadByName`. It scans
`Object.keys(this.threadMap)` for the first key whose lower-cased form
starts with the lower-cased query, reads the mapped id, and returns the
cached node, back-filling the node's name from the matched key when the
stored name is empty. When no key matches, `find` yields `undefined`;
indexing an object with `undefined` coerces it to the key `"undefined"`, and
when that misses too, reading `.name` of `undefined` throws a TypeError
(modelled as `JsFault.typeErrorUndefined`). -/
def getThreadByName (st : MesserState) (name : String) :
    Except JsFault (ThreadRecord × MesserState) :=
  let foundName := (jsKeys st.threadMap).find?
    (fun n => jsStartsWith (jsToLower n) (jsToLower name))
  let nameKey := foundName.getD "undefined"
  let idKey := (jsGet st.threadMap nameKey).getD "undefined"
  match jsGet st.threadCache idKey with
  | none => .error .typeErrorUndefined
  | some thread =>
    if thread.name.length = 0 then
      let updated := { thread with name := nameKey }
      .ok (updated, { st with threadCache := jsSet st.threadCache idKey updated })
    else
      .ok (thread, st)

/-- The synchronous opening segment of `Messer.prototype.getThreadById`:
`let thread = this.threadCache[threadID]; if (thread) return resolve(thread)`.
A `none` result means the call proceeds to issue `api.getThreadInfo`. -/
def getThreadByIdCheckCache (st : MesserState) (threadID : String) :
    Option ThreadRecord :=
  jsGet st.threadCache threadID

/-- The `getThreadInfo` callback of `getThreadById`: reject on `err`,
otherwise `cacheThread(data)` and resolve with the full record `data`. -/
def getThreadByIdOnResponse (st : MesserState)
    (response : Except String ThreadRecord) :
    Except String ThreadRecord × MesserState :=
  match response with
  | .error e => (.error e, st)
  | .ok data => (.ok data, cacheThread st data)

/-- `Messer.prototype.getThreadById` as one call: the cache check followed,
on a miss, by the backend response `response`. The third component records
whether a backend fetch (`api.getThreadInfo`) was issued. -/
def getThreadById (st : MesserState) (threadID : String)
    (response : Except String ThreadRecord) :
    Except String ThreadRecord × MesserState × Bool :=
  match getThreadByIdCheckCache st threadID with
  | some thread => (.ok thread, st, false)
  | none =>
    let r := getThreadByIdOnResponse st response
    (r.1, r.2, true)

/-- Two `getThreadById` calls for the same identifier interleaved so that
both synchronous cache checks run before either `getThreadInfo` response
arrives (the single-threaded event loop runs each check to its suspension
point). The `Messer` state carries no record of in-flight fetches, so the
second check sees the same cache as the first; the result counts the
backend fetches the two calls issue. -/
def concurrentFetchCount (st : MesserState) (threadID : String) : Nat :=
  let fetchA := (getThreadByIdCheckCache st threadID).isNone
  let fetchB := (getThreadByIdCheckCache st threadID).isNone
  (if fetchA then 1 else 0) + (if fetchB then 1 else 0)

/-- The outcome of one `Messer.prototype.processCommand` call: whether a
command handler was invoked, the lines written to the terminal via `log`,
and whether the REPL callback was called (always with `null`). -/
structure CommandOutcome where
  invoked : Bool
  output : List String
  callbackCalled : Bool
deriving DecidableEq, Repr

/-- `Messer.prototype.processCommand`. A whitespace-only line returns at
once (no handler, no output, no callback). Otherwise the first newline is
deleted, the line is split on single spaces, and the first token is looked
up via `getCommandHandler` (the registry, an external collaborator passed
in here as a function). An unknown name logs the invalid-command diagnostic.
A resolved handler is called with the raw command string; its resolution
message or rejection value is logged and the callback invoked with `null`
in both cases, so no rejection escapes to the read-eval loop. -/
def processCommand
    (registry : String → Option (String → Except String String))
    (rawCommand : String) : CommandOutcome :=
  if (jsTrim rawCommand).length = 0 then ⟨false, [], false⟩
  else
    match registry (commandToken rawCommand) with
    | none => ⟨false, ["Invalid command - check your syntax"], false⟩
    | some handler =>
      match handler rawCommand with
      | .ok message => ⟨true, [message], true⟩
      | .error err => ⟨true, [err], true⟩

/-- The credentials object handed to `authenticate`: the identifying field
`email` and the secret `password` (the shape produced by
`helpers.promptCredentials` or the credentials file). -/
structure Credentials where
  email : String
  password : String
deriving DecidableEq, Repr

/-- The rejection value `authenticate` builds when the `facebook` login
callback reports an error: the template literal
`Failed to login as [credentials.email] - err`. -/
def loginFailureMessage (credentials : Credentials) (err : String) : String :=
  "Failed to login as [" ++ credentials.email ++ "] - " ++ err

/-- `Messer.prototype.authenticate`. A login error rejects with
`loginFailureMessage`; on success the api handle is stored and
`fetchCurrentUser` runs, whose resolution resolves the promise with
`undefined` and whose rejection is re-rejected unchanged. `loginOutcome` is
the `err` argument of the `facebook` callback (`none` on success), `b` the
backend responses for the ensuing bulk fetch. -/
def authenticate (st : MesserState) (credentials : Credentials)
    (loginOutcome : Option String) (b : Backend) :
    Except String Unit × MesserState :=
  match loginOutcome with
  | some err => (.error (loginFailureMessage credentials err), st)
  | none =>
    match fetchCurrentUser st b with
    | (.ok _, st2) => (.ok (), st2)
    | (.error e, st2) => (.error e, st2)

-- Concrete session data used by witnesses and counterexamples

/-- Two contacts, retrieved in this order by the bulk fetch. -/
def exFriends : List Contact :=
  [⟨"201", "Alice", "Alice Smith"⟩, ⟨"202", "alina", "alina Jones"⟩]

/-- The first thread page returned by `getThreadList(0, 20, ...)`. -/
def exThreadsPage : List ThreadRecord :=
  [⟨"201", "Alice", []⟩, ⟨"202", "alina", []⟩]

/-- The `getUserInfo` response for the authenticated user `"100"`. -/
def exProfileData : List (String × List (String × String)) :=
  [("100", [("name", "Me")])]

/-- A backend run where every call succeeds. -/
def exBackend : Backend :=
  ⟨"100", .ok exProfileData, .ok exFriends, .ok exThreadsPage⟩

/-- A backend run where only `getThreadList` fails. -/
def exBackendThreadsFail : Backend :=
  ⟨"100", .ok exProfileData, .ok exFriends, .error "getThreadList failed"⟩

/-- A backend run where `getFriendsList` fails. -/
def exBackendFriendsFail : Backend :=
  ⟨"100", .ok exProfileData, .error "getFriendsList failed", .ok exThreadsPage⟩

/-- A backend run where `getUserInfo` fails. -/
def exBackendUserInfoFail : Backend :=
  ⟨"100", .error "getUserInfo failed", .ok exFriends, .ok exThreadsPage⟩

/-- The session state after a fully successful bulk fetch of `exFriends` and
`exThreadsPage` from a fresh `Messer`. -/
def exState : MesserState :=
  registerThreads (applyContacts stEmpty exFriends) exThreadsPage

-- Helper lemmas about the object model

theorem jsGet_jsSet_self (m : List (String × α)) (k : String) (v : α) :
    jsGet (jsSet m k v) k = some v := by
  induction m with
  | nil => simp [jsGet, jsSet]
  | cons p rest ih =>
    by_cases h : p.1 = k
    · simp [jsGet, jsSet, h]
    · simp [jsGet, jsSet, h, ih]

theorem jsGet_jsSet_ne (m : List (String × α)) (k k' : String) (v : α)
    (h : k' ≠ k) : jsGet (jsSet m k v) k' = jsGet m k' := by
  have hkk : ¬ (k = k') := fun hc => h hc.symm
  induction m with
  | nil => simp [jsGet, jsSet, hkk]
  | cons p rest ih =>
    by_cases hp : p.1 = k
    · have hp' : ¬ (p.1 = k') := by rw [hp]; exact hkk
      simp [jsGet, jsSet, hp, hp', hkk]
    · simp [jsGet, jsSet, hp, ih]

theorem jsGet_jsSet_isSome (m : List (String × α)) (k k' : String) (v : α)
    (h : (jsGet m k').isSome) : (jsGet (jsSet m k v) k').isSome := by
  by_cases hk : k' = k
  · subst hk; simp [jsGet_jsSet_self]
  · rw [jsGet_jsSet_ne m k k' v hk]; exact h

-- C3 groundwork

theorem cacheThread_present_noop (st : MesserState) (t : ThreadRecord)
    (h : (jsGet st.threadCache t.threadID).isSome) : cacheThread st t = st := by
  unfold cacheThread
  cases hg : jsGet st.threadCache t.threadID with
  | none => rw [hg] at h; simp at h
  | some _ => rfl

/-- C3: `cacheThread` is idempotent with first-write-wins semantics: a call
for an identifier already present in the thread cache leaves the whole state
unchanged, and after caching a thread, a second `cacheThread` call with the
same identifier and a different name keeps the node written by the first
call (its name included). -/
theorem cacheThread_first_write_wins :
    (∀ (st : MesserState) (t : ThreadRecord),
      (jsGet st.threadCache t.threadID).isSome → cacheThread st t = st) ∧
    (∀ (st : MesserState) (t1 t2 : ThreadRecord),
      t2.threadID = t1.threadID →
      jsGet st.threadCache t1.threadID = none →
      jsGet (cacheThread (cacheThread st t1) t2).threadCache t1.threadID =
        some ⟨t1.threadID, t1.name, []⟩) := by
  constructor
  · exact cacheThread_present_noop
  · intro st t1 t2 hid hnone
    have h1 : cacheThread st t1 =
        { st with
          threadCache :=
            jsSet st.threadCache t1.threadID ⟨t1.threadID, t1.name, []⟩ } := by
      unfold cacheThread
      rw [hnone]
    have hpresent :
        (jsGet (cacheThread st t1).threadCache t2.threadID).isSome := by
      rw [h1, hid]
      simp [jsGet_jsSet_self]
    rw [cacheThread_present_noop _ _ hpresent, h1]
    simp [jsGet_jsSet_self]

/-- Witness for C3 at a concrete input: caching thread `"7"` as `"Alice"`
and then again as `"Bob"` keeps the node with name `"Alice"`. -/
theorem cacheThread_first_write_wins_witness :
    jsGet (cacheThread (cacheThread stEmpty ⟨"7", "Alice", []⟩)
        ⟨"7", "Bob", [("color", "blue")]⟩).threadCache "7" =
      some ⟨"7", "Alice", []⟩ :=
  cacheThread_first_write_wins.2 stEmpty ⟨"7", "Alice", []⟩
    ⟨"7", "Bob", [("color", "blue")]⟩ rfl rfl

-- Thread registration touches only the thread cache

theorem cacheThread_threadMap (st : MesserState) (t : ThreadRecord) :
    (cacheThread st t).threadMap = st.threadMap := by
  unfold cacheThread
  cases jsGet st.threadCache t.threadID <;> rfl

theorem cacheThread_userCache (st : MesserState) (t : ThreadRecord) :
    (cacheThread st t).userCache = st.userCache := by
  unfold cacheThread
  cases jsGet st.threadCache t.threadID <;> rfl

theorem registerThreads_threadMap (st : MesserState) (ts : List ThreadRecord) :
    (registerThreads st ts).threadMap = st.threadMap := by
  induction ts generalizing st with
  | nil => rfl
  | cons t ts ih =>
    simp only [registerThreads, List.foldl_cons]
    rw [show List.foldl cacheThread (cacheThread st t) ts =
      registerThreads (cacheThread st t) ts from rfl]
    rw [ih (cacheThread st t), cacheThread_threadMap]

theorem registerThreads_userCache (st : MesserState) (ts : List ThreadRecord) :
    (registerThreads st ts).userCache = st.userCache := by
  induction ts generalizing st with
  | nil => rfl
  | cons t ts ih =>
    simp only [registerThreads, List.foldl_cons]
    rw [show List.foldl cacheThread (cacheThread st t) ts =
      registerThreads (cacheThread st t) ts from rfl]
    rw [ih (cacheThread st t), cacheThread_userCache]

-- Contact processing makes every contact reachable

theorem applyContacts_threadMap_isSome (st : MesserState) (fs : List Contact)
    (k : String) (h : (jsGet st.threadMap k).isSome) :
    (jsGet (applyContacts st fs).threadMap k).isSome := by
  induction fs generalizing st with
  | nil => exact h
  | cons u fs ih =>
    simp only [applyContacts, List.foldl_cons]
    exact ih (applyContact st u)
      (jsGet_jsSet_isSome st.threadMap (contactKey u) k u.userID h)

theorem applyContacts_userCache_isSome (st : MesserState) (fs : List Contact)
    (k : String) (h : (jsGet st.userCache k).isSome) :
    (jsGet (applyContacts st fs).userCache k).isSome := by
  induction fs generalizing st with
  | nil => exact h
  | cons u fs ih =>
    simp only [applyContacts, List.foldl_cons]
    exact ih (applyContact st u)
      (jsGet_jsSet_isSome st.userCache u.userID k u h)

theorem applyContacts_covers (st : MesserState) (fs : List Contact) :
    ∀ u ∈ fs,
      (jsGet (applyContacts st fs).threadMap (contactKey u)).isSome ∧
      (jsGet (applyContacts st fs).userCache u.userID).isSome := by
  induction fs generalizing st with
  | nil => intro u hu; cases hu
  | cons v fs ih =>
    intro u hu
    rcases List.mem_cons.mp hu with rfl | hu
    · simp only [applyContacts, List.foldl_cons]
      constructor
      · exact applyContacts_threadMap_isSome (applyContact st u) fs _
          (by simp [applyContact, jsGet_jsSet_self])
      · exact applyContacts_userCache_isSome (applyContact st u) fs _
          (by simp [applyContact, jsGet_jsSet_self])
    · simp only [applyContacts, List.foldl_cons]
      exact ih (applyContact st v) u hu

/-- C1: within a run of `fetchCurrentUser` whose profile step succeeded, the
bulk-fetch steps are strictly ordered. If contact retrieval fails the
promise rejects and the state (its thread cache included) is untouched, so
no thread is registered. If contact retrieval succeeds, the NameIndex
(`threadMap`) holds an entry for every retrieved contact under
`u.name || u.fullName` and the user cache an entry under every contact's id,
already in the intermediate state `applyContacts st friends` on which thread
registration is then run (`registerThreads`, i.e. `cacheThread` per thread
of the page); registration changes neither the NameIndex nor the user
cache. -/
theorem fetchCurrentUser_contacts_before_threads :
    ∀ (st : MesserState) (b : Backend)
      (data : List (String × List (String × String))),
      b.userInfo = .ok data →
      ((∀ e, b.friends = .error e → fetchCurrentUser st b = (.error e, st)) ∧
       (∀ friends, b.friends = .ok friends →
         (∀ u ∈ friends,
           (jsGet (applyContacts st friends).threadMap (contactKey u)).isSome ∧
           (jsGet (applyContacts st friends).userCache u.userID).isSome) ∧
         (∀ page, b.threadList = .ok page →
           fetchCurrentUser st b =
             (.ok ⟨b.currentUserID, (jsGet data b.currentUserID).getD []⟩,
              registerThreads (applyContacts st friends) page)) ∧
         (∀ page,
           (registerThreads (applyContacts st friends) page).threadMap =
             (applyContacts st friends).threadMap ∧
           (registerThreads (applyContacts st friends) page).userCache =
             (applyContacts st friends).userCache))) := by
  intro st b data hdata
  constructor
  · intro e he
    simp [fetchCurrentUser, hdata, he]
  · intro friends hf
    refine ⟨applyContacts_covers st friends, ?_, ?_⟩
    · intro page hp
      simp [fetchCurrentUser, hdata, hf, hp]
    · intro page
      exact ⟨registerThreads_threadMap _ page, registerThreads_userCache _ page⟩

/-- Witness for C1 at a concrete run: with contact retrieval failing, the
promise rejects and the fresh state keeps its empty thread cache; with
every call succeeding, the final state is thread registration applied to
the contacts-complete state. -/
theorem fetchCurrentUser_contacts_before_threads_witness :
    fetchCurrentUser stEmpty exBackendFriendsFail =
      (.error "getFriendsList failed", stEmpty) ∧
    fetchCurrentUser stEmpty exBackend =
      (.ok ⟨"100", [("name", "Me")]⟩,
       registerThreads (applyContacts stEmpty exFriends) exThreadsPage) := by
  constructor
  · exact (fetchCurrentUser_contacts_before_threads stEmpty
      exBackendFriendsFail exProfileData rfl).1 "getFriendsList failed" rfl
  · exact ((fetchCurrentUser_contacts_before_threads stEmpty exBackend
      exProfileData rfl).2 exFriends rfl).2.1 exThreadsPage rfl

/-- C2 counterexample: in a run where the thread-page retrieval
(`getThreadList`) fails, `fetchCurrentUser` does not reject — its callback
ignores `err` and resolves the user anyway — refuting the claim that any
failing step rejects the whole operation. -/
theorem fetchCurrentUser_threadList_failure_still_resolves :
    exBackendThreadsFail.threadList = .error "getThreadList failed" ∧
    (fetchCurrentUser stEmpty exBackendThreadsFail).1 =
      .ok ⟨"100", [("name", "Me")]⟩ :=
  ⟨rfl, rfl⟩

/-- C2 (amended): a failure of profile retrieval (`getUserInfo`) or of
contact retrieval (`getFriendsList`) rejects the whole operation with that
failure, and the session state written so far is retained (no step that can
reject writes to the caches before rejecting, so the state is exactly the
entry state); but a failure of thread-page retrieval (`getThreadList`) does
not reject: the operation resolves with the assembled user and no thread is
registered. Identity resolution (`getCurrentUserID`) is synchronous and has
no failure channel. -/
theorem fetchCurrentUser_failure_propagation :
    ∀ (st : MesserState) (b : Backend),
      (∀ e, b.userInfo = .error e → fetchCurrentUser st b = (.error e, st)) ∧
      (∀ data e, b.userInfo = .ok data → b.friends = .error e →
        fetchCurrentUser st b = (.error e, st)) ∧
      (∀ data friends e, b.userInfo = .ok data → b.friends = .ok friends →
        b.threadList = .error e →
        fetchCurrentUser st b =
          (.ok ⟨b.currentUserID, (jsGet data b.currentUserID).getD []⟩,
           applyContacts st friends)) := by
  intro st b
  refine ⟨?_, ?_, ?_⟩
  · intro e he
    simp [fetchCurrentUser, he]
  · intro data e hd he
    simp [fetchCurrentUser, hd, he]
  · intro data friends e hd hf ht
    simp [fetchCurrentUser, hd, hf, ht]

/-- Witness for C2 (amended) at concrete runs: a failing `getUserInfo`
rejects with its error and leaves the fresh state unchanged; a failing
`getThreadList` resolves with the user while only the contact entries have
been written. -/
theorem fetchCurrentUser_failure_propagation_witness :
    fetchCurrentUser stEmpty exBackendUserInfoFail =
      (.error "getUserInfo failed", stEmpty) ∧
    fetchCurrentUser stEmpty exBackendThreadsFail =
      (.ok ⟨"100", [("name", "Me")]⟩, applyContacts stEmpty exFriends) := by
  constructor
  · exact (fetchCurrentUser_failure_propagation stEmpty
      exBackendUserInfoFail).1 "getUserInfo failed" rfl
  · exact (fetchCurrentUser_failure_propagation stEmpty
      exBackendThreadsFail).2.2 exProfileData exFriends
      "getThreadList failed" rfl rfl rfl

-- Name lookup

theorem find?_eq_of_first_index {α : Type} (p : α → Bool) (l : List α)
    (i : Nat) (k : α) (hk : l[i]? = some k) (hpk : p k = true)
    (hbefore : ∀ j, j < i → ∀ k', l[j]? = some k' → p k' = false) :
    l.find? p = some k := by
  induction l generalizing i with
  | nil => simp at hk
  | cons x xs ih =>
    cases i with
    | zero =>
      simp only [List.getElem?_cons_zero, Option.some.injEq] at hk
      subst hk
      exact List.find?_cons_of_pos xs hpk
    | succ i =>
      have hx : p x = false := hbefore 0 (Nat.succ_pos i) x (by simp)
      rw [List.find?_cons_of_neg xs (by simp [hx])]
      exact ih i (by simpa using hk)
        (fun j hj k' hk' =>
          hbefore (j + 1) (by omega) k' (by simpa using hk'))

/-- C4: whenever `k` is the first key in the NameIndex's iteration order
(`Object.keys(threadMap)`) whose lower-cased form starts with the
lower-cased query, and the thread cache holds an entry for the id mapped to
`k`, `getThreadByName` returns that cached thread — the first key in
iteration order wins the tie, not the alphabetically smallest — back-filling
its name from `k` only when the stored name is empty. -/
theorem getThreadByName_first_iteration_match
    (st : MesserState) (query : String) (i : Nat) (k threadID : String)
    (t : ThreadRecord)
    (hk : (jsKeys st.threadMap)[i]? = some k)
    (hmatch : jsStartsWith (jsToLower k) (jsToLower query) = true)
    (hbefore : ∀ j, j < i → ∀ k', (jsKeys st.threadMap)[j]? = some k' →
      jsStartsWith (jsToLower k') (jsToLower query) = false)
    (hid : jsGet st.threadMap k = some threadID)
    (ht : jsGet st.threadCache threadID = some t) :
    getThreadByName st query =
      if t.name.length = 0 then
        .ok ({ t with name := k },
          { st with
            threadCache := jsSet st.threadCache threadID { t with name := k } })
      else .ok (t, st) := by
  have hfind : (jsKeys st.threadMap).find?
      (fun n => jsStartsWith (jsToLower n) (jsToLower query)) = some k :=
    find?_eq_of_first_index _ _ i k hk hmatch hbefore
  simp only [getThreadByName, hfind, Option.getD_some, hid, ht]

/-- Witness for C4 at the spec's own example: contacts inserted in order
`["Alice", "alina"]`, query `"ali"` — the lookup resolves to the thread of
`"Alice"`, the first-inserted matching name, not the alphabetically smaller
`"alina"`. -/
theorem getThreadByName_first_iteration_match_witness :
    getThreadByName exState "ali" = .ok (⟨"201", "Alice", []⟩, exState) := by
  have h := getThreadByName_first_iteration_match exState "ali" 0 "Alice"
    "201" ⟨"201", "Alice", []⟩ rfl (by decide)
    (fun j hj _ _ => absurd hj (Nat.not_lt_zero j)) rfl rfl
  rw [if_neg (by decide)] at h
  exact h

/-- C5 (code bug evidence): on a query matching no NameIndex key, `find`
yields `undefined`, the two object lookups miss, and the code reads `.name`
of `undefined`: `getThreadByName` throws a TypeError instead of resolving to
a NotFound error, even on a fully populated session state. -/
theorem getThreadByName_no_match_throws :
    getThreadByName exState "zzz" = .error .typeErrorUndefined ∧
    getThreadByName stEmpty "anything" = .error .typeErrorUndefined :=
  ⟨rfl, rfl⟩

/-- C6: `getThreadById` resolves a cached identifier from the cache with no
backend fetch; on a miss it issues the fetch, and the response is either
stored via `cacheThread` and resolved (on success) or rejected unchanged (on
failure). -/
theorem getThreadById_cache_semantics :
    ∀ (st : MesserState) (threadID : String)
      (response : Except String ThreadRecord),
      (∀ t, jsGet st.threadCache threadID = some t →
        getThreadById st threadID response = (.ok t, st, false)) ∧
      (jsGet st.threadCache threadID = none →
        (∀ data, response = .ok data →
          getThreadById st threadID response =
            (.ok data, cacheThread st data, true)) ∧
        (∀ e, response = .error e →
          getThreadById st threadID response = (.error e, st, true))) := by
  intro st threadID response
  constructor
  · intro t htc
    simp [getThreadById, getThreadByIdCheckCache, htc]
  · intro hnone
    constructor
    · intro data hr
      simp [getThreadById, getThreadByIdCheckCache, getThreadByIdOnResponse,
        hnone, hr]
    · intro e hr
      simp [getThreadById, getThreadByIdCheckCache, getThreadByIdOnResponse,
        hnone, hr]

/-- Witness for C6 at concrete inputs: a cached id resolves without a fetch;
an uncached id fetches, caches and resolves the backend record. -/
theorem getThreadById_cache_semantics_witness :
    getThreadById exState "201" (.error "unused") =
      (.ok ⟨"201", "Alice", []⟩, exState, false) ∧
    getThreadById stEmpty "5" (.ok ⟨"5", "Bob", [("x", "y")]⟩) =
      (.ok ⟨"5", "Bob", [("x", "y")]⟩,
       cacheThread stEmpty ⟨"5", "Bob", [("x", "y")]⟩, true) := by
  constructor
  · exact (getThreadById_cache_semantics exState "201" (.error "unused")).1
      ⟨"201", "Alice", []⟩ rfl
  · exact ((getThreadById_cache_semantics stEmpty "5"
      (.ok ⟨"5", "Bob", [("x", "y")]⟩)).2 rfl).1 ⟨"5", "Bob", [("x", "y")]⟩ rfl

/-- C7 counterexample: two `getThreadById` calls for the uncached identifier
`"1"`, interleaved so both cache checks run before either response arrives,
issue two backend fetches — the claim's "at most one backend fetch in
total" fails, because the state tracks no in-flight fetch. -/
theorem getThreadById_concurrent_duplicate_fetches :
    getThreadByIdCheckCache stEmpty "1" = none ∧
    concurrentFetchCount stEmpty "1" = 2 :=
  ⟨rfl, rfl⟩

/-- C7 (amended): `getThreadById` performs no in-flight deduplication: every
call whose synchronous cache check runs while the identifier is uncached
issues its own backend fetch, so two calls interleaved before either
response arrives issue two fetches; only after a fetch's response has been
stored via `cacheThread` do later calls stop fetching. -/
theorem getThreadById_no_inflight_dedup :
    ∀ (st : MesserState) (threadID : String),
      jsGet st.threadCache threadID = none →
      concurrentFetchCount st threadID = 2 ∧
      (∀ r : ThreadRecord, r.threadID = threadID →
        ∀ response,
          (getThreadById (cacheThread st r) threadID response).2.2 = false) := by
  intro st threadID hnone
  constructor
  · simp [concurrentFetchCount, getThreadByIdCheckCache, hnone]
  · intro r hr response
    have hct : cacheThread st r =
        { st with
          threadCache := jsSet st.threadCache threadID ⟨threadID, r.name, []⟩ } := by
      unfold cacheThread
      rw [hr, hnone]
    have hhit : jsGet (cacheThread st r).threadCache threadID =
        some ⟨threadID, r.name, []⟩ := by
      rw [hct]
      exact jsGet_jsSet_self st.threadCache threadID ⟨threadID, r.name, []⟩
    simp [getThreadById, getThreadByIdCheckCache, hhit]

/-- Witness for C7 (amended) at a concrete input: from a fresh state, the
two interleaved calls for `"1"` issue two fetches, and once a response has
been cached a later call issues none. -/
theorem getThreadById_no_inflight_dedup_witness :
    concurrentFetchCount stEmpty "1" = 2 ∧
    (getThreadById (cacheThread stEmpty ⟨"1", "Bob", []⟩) "1"
      (.error "unused")).2.2 = false := by
  have h := getThreadById_no_inflight_dedup stEmpty "1" rfl
  exact ⟨h.1, h.2 ⟨"1", "Bob", []⟩ rfl (.error "unused")⟩

/-- C8: `processCommand` is a total function of the line and the handler's
outcome, so nothing escapes to the read-eval loop: a whitespace-only line
invokes no handler and produces no output; a line whose first token is not
a registered command logs the invalid-command diagnostic and invokes no
handler; and an invoked handler has its resolution message, or its
rejection value, logged, with the REPL callback invoked in both cases. -/
theorem processCommand_never_escapes :
    ∀ (registry : String → Option (String → Except String String))
      (rawCommand : String),
      ((jsTrim rawCommand).length = 0 →
        processCommand registry rawCommand = ⟨false, [], false⟩) ∧
      ((jsTrim rawCommand).length ≠ 0 →
        (registry (commandToken rawCommand) = none →
          processCommand registry rawCommand =
            ⟨false, ["Invalid command - check your syntax"], false⟩) ∧
        (∀ handler,
          registry (commandToken rawCommand) = some handler →
          (∀ message, handler rawCommand = .ok message →
            processCommand registry rawCommand = ⟨true, [message], true⟩) ∧
          (∀ err, handler rawCommand = .error err →
            processCommand registry rawCommand = ⟨true, [err], true⟩))) := by
  intro registry rawCommand
  constructor
  · intro h0
    simp [processCommand, h0]
  · intro hne
    refine ⟨?_, ?_⟩
    · intro hnone
      simp [processCommand, hne, hnone]
    · intro handler hsome
      constructor
      · intro message hm
        simp [processCommand, hne, hsome, hm]
      · intro err he
        simp [processCommand, hne, hsome, he]

/-- A concrete command registry with one command, `"message"`, whose handler
resolves on one specific raw line and rejects on any other. -/
def exRegistry : String → Option (String → Except String String) :=
  fun c =>
    if c = "message" then
      some (fun raw =>
        if raw = "message Alice hi\n" then .ok "sent" else .error "failed")
    else none

/-- Witness for C8 at concrete inputs: a whitespace line, an unknown
command, a resolving handler and a rejecting handler. -/
theorem processCommand_never_escapes_witness :
    processCommand exRegistry "   " = ⟨false, [], false⟩ ∧
    processCommand exRegistry "bogus cmd\n" =
      ⟨false, ["Invalid command - check your syntax"], false⟩ ∧
    processCommand exRegistry "message Alice hi\n" = ⟨true, ["sent"], true⟩ ∧
    processCommand exRegistry "message Bob\n" = ⟨true, ["failed"], true⟩ := by
  refine ⟨?_, ?_, ?_, ?_⟩
  · exact (processCommand_never_escapes exRegistry "   ").1 (by decide)
  · exact ((processCommand_never_escapes exRegistry "bogus cmd\n").2
      (by decide)).1 rfl
  · exact (((processCommand_never_escapes exRegistry "message Alice hi\n").2
      (by decide)).2 _ rfl).1 "sent" rfl
  · exact (((processCommand_never_escapes exRegistry "message Bob\n").2
      (by decide)).2 _ rfl).2 "failed" rfl

/-- C9: a failed login rejects with the template
`Failed to login as [email] - err`, which carries the identifying email and
the backend's failure text; and the whole `authenticate` outcome is
independent of the secret — two runs differing only in the password produce
identical results, so no error text can contain the secret. -/
theorem authenticate_failure_never_leaks_secret :
    ∀ (st : MesserState) (c : Credentials) (err : String) (b : Backend),
      (authenticate st c (some err) b).1 =
        .error ("Failed to login as [" ++ c.email ++ "] - " ++ err) ∧
      (∀ c2 : Credentials, c2.email = c.email →
        ∀ loginOutcome : Option String,
          authenticate st c2 loginOutcome b =
            authenticate st c loginOutcome b) := by
  intro st c err b
  constructor
  · rfl
  · intro c2 hmail loginOutcome
    cases loginOutcome with
    | none => rfl
    | some e => simp [authenticate, loginFailureMessage, hmail]

/-- Witness for C9 at a concrete input: the rejection text for
`user@site.com`, and its independence from the password (`"hunter2"` versus
`"password123"`). -/
theorem authenticate_failure_never_leaks_secret_witness :
    (authenticate stEmpty ⟨"user@site.com", "hunter2"⟩
        (some "bad credentials") exBackend).1 =
      .error "Failed to login as [user@site.com] - bad credentials" ∧
    authenticate stEmpty ⟨"user@site.com", "hunter2"⟩
        (some "bad credentials") exBackend =
      authenticate stEmpty ⟨"user@site.com", "password123"⟩
        (some "bad credentials") exBackend := by
  have h := authenticate_failure_never_leaks_secret stEmpty
    ⟨"user@site.com", "password123"⟩ "bad credentials" exBackend
  exact ⟨(authenticate_failure_never_leaks_secret stEmpty
      ⟨"user@site.com", "hunter2"⟩ "bad credentials" exBackend).1,
    h.2 ⟨"user@site.com", "hunter2"⟩ rfl (some "bad credentials")⟩

/-- C10: on a cache miss `getThreadById` resolves the backend's full record,
but the cache keeps only the `\x7b name, threadID \x7d` projection built by
`cacheThread`; a later call for the same identifier therefore resolves the
projection, which differs from the first call's value whenever the backend
record carried further fields. -/
theorem getThreadById_hit_returns_projection :
    ∀ (st : MesserState) (threadID : String) (r : ThreadRecord),
      jsGet st.threadCache threadID = none →
      r.threadID = threadID →
      (getThreadById st threadID (.ok r)).1 = .ok r ∧
      (∀ response,
        getThreadById (getThreadById st threadID (.ok r)).2.1 threadID
            response =
          (.ok ⟨threadID, r.name, []⟩,
           (getThreadById st threadID (.ok r)).2.1, false)) ∧
      (r.extra ≠ [] →
        (Except.ok r : Except String ThreadRecord) ≠
          .ok ⟨threadID, r.name, []⟩) := by
  intro st threadID r hnone hr
  have hmiss : getThreadById st threadID (.ok r) =
      (.ok r, cacheThread st r, true) := by
    simp [getThreadById, getThreadByIdCheckCache, getThreadByIdOnResponse,
      hnone]
  have hct : cacheThread st r =
      { st with
        threadCache := jsSet st.threadCache threadID ⟨threadID, r.name, []⟩ } := by
    unfold cacheThread
    rw [hr, hnone]
  have hhit : jsGet (cacheThread st r).threadCache threadID =
      some ⟨threadID, r.name, []⟩ := by
    rw [hct]
    exact jsGet_jsSet_self st.threadCache threadID ⟨threadID, r.name, []⟩
  refine ⟨by rw [hmiss], ?_, ?_⟩
  · intro response
    rw [hmiss]
    simp [getThreadById, getThreadByIdCheckCache, hhit]
  · intro hextra hcontra
    have hre : r = ⟨threadID, r.name, []⟩ := by
      injection hcontra
    exact hextra (by rw [hre])

/-- Witness for C10 at a concrete input: the miss call resolves the full
record with its extra field, the following hit call resolves the bare
two-field projection, and the two values differ. -/
theorem getThreadById_hit_returns_projection_witness :
    (getThreadById stEmpty "5" (.ok ⟨"5", "Bob", [("color", "blue")]⟩)).1 =
      .ok ⟨"5", "Bob", [("color", "blue")]⟩ ∧
    getThreadById
        (getThreadById stEmpty "5"
          (.ok ⟨"5", "Bob", [("color", "blue")]⟩)).2.1 "5" (.error "unused") =
      (.ok ⟨"5", "Bob", []⟩,
       (getThreadById stEmpty "5"
         (.ok ⟨"5", "Bob", [("color", "blue")]⟩)).2.1, false) ∧
    (Except.ok (⟨"5", "Bob", [("color", "blue")]⟩ : ThreadRecord) :
        Except String ThreadRecord) ≠ .ok ⟨"5", "Bob", []⟩ := by
  have h := getThreadById_hit_returns_projection stEmpty "5"
    ⟨"5", "Bob", [("color", "blue")]⟩ rfl rfl
  exact ⟨h.1, h.2.1 (.error "unused"), h.2.2 (by decide)⟩
